import Mathlib

/-!
Shallow embedding of the action/batch state machine of the `ai_assistant_ui`
repository (files `models/action.py`, `models/batch.py`, `models/state.py`,
`controllers/email_controller.py`).

Python objects are mutable and shared by reference.  The embedding models the
store of `InboxAction` objects as a heap indexed by `ActionId` (a `Nat`
standing for Python object identity); batches hold lists of `ActionId`, so an
in-place mutation of an action is a single heap update visible through every
batch that references it, exactly as in the source.  `AppState.current_batch`
in the source is a reference that is always the same object as
`state.batches[current_batch.id]` (the only two assignments, in
`set_current_batch` and `modify_action`, re-point both together), so the
embedding stores the current batch id and derives the reference.
Timestamps (`datetime.now()`) are modelled by an explicit `now : Nat`
argument.  Raised Python exceptions are modelled by an explicit `PyErr`
component carried next to the mutated-so-far state.
-/

namespace AiAssistantUi

/-- Object identity of a Python `InboxAction` object. -/
abbrev ActionId := Nat

/-- The destination enumeration.  The repository imports this closed
enumeration from the external `npc` package; its five members are the ones the
repository's own code enumerates (the label mappings in `models/gmail.py` and
the key bindings in `views/list_view.py`). -/
inductive EmailDestination where
  | NEWSLETTER
  | BUSINESS_TRANSACTION
  | ARCHIVE
  | DELETE
  | INBOX
deriving DecidableEq, Repr

/-- Python `destination.name.lower()` as used for batch identifiers. -/
def EmailDestination.nameLower : EmailDestination → String
  | .NEWSLETTER => "newsletter"
  | .BUSINESS_TRANSACTION => "business_transaction"
  | .ARCHIVE => "archive"
  | .DELETE => "delete"
  | .INBOX => "inbox"

/-- Python `ActionStatus` from `models/action.py`. -/
inductive ActionStatus where
  | PENDING
  | ACCEPTED
  | REJECTED
  | EXECUTING
  | EXECUTED
  | FAILED
deriving DecidableEq, Repr

/-- The `npc` package's `Status` enumeration (imported as `NpcStatus` by the
controller); its five members are exactly the ones the controller's conversion
table lists. -/
inductive NpcStatus where
  | NOT_STARTED
  | IN_PROGRESS
  | SUCCEEDED
  | FAILED
  | CANCELED
deriving DecidableEq, Repr

/-- The envelope of a mail item (external `npc` dataclass); the core reads
`email.id` and `email.thread_id`. -/
structure Email where
  id : Nat
  threadId : Nat
deriving DecidableEq, Repr

/-- Python `InboxAction` from `models/action.py`: the dataclass fields plus the
attributes set in `__post_init__`. -/
structure InboxAction where
  email : Email
  destination : EmailDestination
  mark_as_read : Bool
  status : ActionStatus
  original_destination : EmailDestination
  original_mark_as_read : Bool
  modified_at : Option Nat
  error_message : Option String
deriving DecidableEq, Repr

/-- Constructing an `InboxAction(email, destination, mark_as_read)`:
`__post_init__` sets status PENDING, snapshots the originals and clears
`modified_at` / `error_message`. -/
def InboxAction.make (email : Email) (destination : EmailDestination)
    (mark_as_read : Bool) : InboxAction :=
  { email := email
    destination := destination
    mark_as_read := mark_as_read
    status := ActionStatus.PENDING
    original_destination := destination
    original_mark_as_read := mark_as_read
    modified_at := none
    error_message := none }

/-- Python `InboxAction.can_modify`: status in (PENDING, ACCEPTED, REJECTED). -/
def InboxAction.can_modify (a : InboxAction) : Bool :=
  match a.status with
  | .PENDING => true
  | .ACCEPTED => true
  | .REJECTED => true
  | _ => false

/-- Python `InboxAction.can_execute`: status == ACCEPTED. -/
def InboxAction.can_execute (a : InboxAction) : Bool :=
  match a.status with
  | .ACCEPTED => true
  | _ => false

/-- Python `InboxAction.is_modified`. -/
def InboxAction.is_modified (a : InboxAction) : Bool :=
  decide (a.destination ≠ a.original_destination ∨
    a.mark_as_read ≠ a.original_mark_as_read)

/-- Python `InboxAction.accept`. -/
def InboxAction.accept (a : InboxAction) : InboxAction :=
  if a.can_modify then { a with status := ActionStatus.ACCEPTED } else a

/-- Python `InboxAction.reject`. -/
def InboxAction.reject (a : InboxAction) : InboxAction :=
  if a.can_modify then { a with status := ActionStatus.REJECTED } else a

/-- Python `InboxAction.set_destination`. -/
def InboxAction.set_destination (a : InboxAction) (nd : EmailDestination)
    (now : Nat) : InboxAction :=
  if a.can_modify ∧ nd ≠ a.destination then
    { a with destination := nd, modified_at := some now }
  else a

/-- Python `InboxAction.set_read_status`. -/
def InboxAction.set_read_status (a : InboxAction) (m : Bool)
    (now : Nat) : InboxAction :=
  if a.can_modify ∧ m ≠ a.mark_as_read then
    { a with mark_as_read := m, modified_at := some now }
  else a

/-- Python `InboxAction.set_executing`. -/
def InboxAction.set_executing (a : InboxAction) : InboxAction :=
  { a with status := ActionStatus.EXECUTING }

/-- Python `InboxAction.set_executed`. -/
def InboxAction.set_executed (a : InboxAction) : InboxAction :=
  { a with status := ActionStatus.EXECUTED }

/-- Python `InboxAction.set_failed`. -/
def InboxAction.set_failed (a : InboxAction) (e : String) : InboxAction :=
  { a with status := ActionStatus.FAILED, error_message := some e }

/-- The `@dataclass`-generated `__eq__` of `InboxAction` compares only the
declared dataclass fields (`email`, `destination`, `mark_as_read`); the
attributes assigned in `__post_init__` do not take part.  `list.remove` uses
this equality. -/
def InboxAction.dataclass_eq (a b : InboxAction) : Bool :=
  decide (a.email = b.email) && decide (a.destination = b.destination) &&
    decide (a.mark_as_read = b.mark_as_read)

/-- The heap of live `InboxAction` objects. -/
abbrev Heap := ActionId → InboxAction

/-- In-place mutation of the object `i`. -/
def heapSet (h : Heap) (i : ActionId) (v : InboxAction) : Heap :=
  fun j => if j = i then v else h j

/-- Python `ActionBatchStatus` from `models/batch.py`. -/
inductive ActionBatchStatus where
  | READY
  | EXECUTING
  | COMPLETED
  | FAILED
  | CANCELED
deriving DecidableEq, Repr

/-- Python `ActionBatch` from `models/batch.py`; `actions` holds references. -/
structure ActionBatch where
  id : String
  actions : List ActionId
  created_at : Nat
  status : ActionBatchStatus
  error_message : Option String
deriving DecidableEq, Repr

/-- Python `ActionBatch.count_actions`. -/
def ActionBatch.count_actions (b : ActionBatch) (h : Heap)
    (s : ActionStatus) : Nat :=
  (b.actions.filter (fun i => decide ((h i).status = s))).length

/-- Python `ActionBatch.set_status`. -/
def ActionBatch.set_status (b : ActionBatch) (s : ActionBatchStatus) :
    ActionBatch :=
  { b with status := s }

/-- Python `ActionBatch.size`. -/
def ActionBatch.size (b : ActionBatch) : Nat := b.actions.length

/-- Python `ActionBatch.is_complete`. -/
def ActionBatch.is_complete (b : ActionBatch) (h : Heap) : Bool :=
  decide (b.count_actions h ActionStatus.PENDING = 0)

/-- Python `ActionBatch.can_execute`. -/
def ActionBatch.can_execute (b : ActionBatch) (h : Heap) : Bool :=
  decide (b.status = ActionBatchStatus.READY) &&
    b.actions.any (fun i => (h i).can_execute)

/-- Python `group_by_destination` from `models/batch.py`: a dict with one entry per
member of the destination enumeration (in enumeration order), each holding the
input actions (references, in input order) whose destination matches, in an
`ActionBatch` whose id is the lowercased destination name. -/
def allDestinations : List EmailDestination :=
  [EmailDestination.NEWSLETTER, EmailDestination.BUSINESS_TRANSACTION,
   EmailDestination.ARCHIVE, EmailDestination.DELETE, EmailDestination.INBOX]

def group_by_destination (now : Nat) (h : Heap) (actions : List ActionId) :
    List (EmailDestination × ActionBatch) :=
  allDestinations.map (fun d =>
    (d, { id := d.nameLower
          actions := actions.filter (fun i => decide ((h i).destination = d))
          created_at := now
          status := ActionBatchStatus.READY
          error_message := none }))


/-- The `state.batches` Python dict: insertion-ordered association list.
Assignment replaces the value at an existing key in place, otherwise appends. -/
abbrev Dict := List (String × ActionBatch)

def dictFind? (d : Dict) (k : String) : Option ActionBatch :=
  match d with
  | [] => none
  | (k', v) :: rest => if k' = k then some v else dictFind? rest k

def dictInsert (d : Dict) (k : String) (v : ActionBatch) : Dict :=
  match d with
  | [] => [(k, v)]
  | (k', v') :: rest =>
    if k' = k then (k, v) :: rest else (k', v') :: dictInsert rest k v

/-- Python `ActionHistoryEntry` from `models/state.py`: the snapshots are deep copies,
hence plain values here. -/
structure ActionHistoryEntry where
  action_before : InboxAction
  action_after : InboxAction
  batch_id : String
  timestamp : Nat
deriving DecidableEq, Repr

/-- Python `history` is a `deque(maxlen=10)`: appending beyond 10 entries silently
drops the oldest. -/
def histAppend (h : List ActionHistoryEntry) (e : ActionHistoryEntry) :
    List ActionHistoryEntry :=
  let h' := h ++ [e]
  if h'.length ≤ 10 then h' else h'.drop (h'.length - 10)

/-- Python `AppState` from `models/state.py`.  `nextId` is the allocator for fresh
object identities (Python object creation).  `currentBatchId` holds the id of
the batch that `current_batch` references; the reference itself is derived
(see the file comment on the reference invariant). -/
structure AppState where
  heap : Heap
  nextId : Nat
  currentBatchId : Option String
  history : List ActionHistoryEntry
  redo_stack : List ActionHistoryEntry
  batches : Dict

/-- The `current_batch` reference. -/
def AppState.current_batch (st : AppState) : Option ActionBatch :=
  match st.currentBatchId with
  | none => none
  | some k => dictFind? st.batches k

/-- Python `AppState.set_current_batch`. -/
def AppState.set_current_batch (st : AppState) (b : ActionBatch) : AppState :=
  { st with
    currentBatchId := some b.id
    batches := dictInsert st.batches b.id b
    redo_stack := [] }

/-- Python `AppState.record_action_change`. -/
def AppState.record_action_change (st : AppState) (before after : InboxAction)
    (batch_id : String) (now : Nat) : AppState :=
  { st with
    history := histAppend st.history ⟨before, after, batch_id, now⟩
    redo_stack := [] }

/-- Python `AppState.can_undo`. -/
def AppState.can_undo (st : AppState) : Bool := decide (0 < st.history.length)

/-- Python `AppState.can_redo`. -/
def AppState.can_redo (st : AppState) : Bool :=
  decide (0 < st.redo_stack.length)

/-- Python `AppState._find_action`: first action in the batch (if any) whose email id
matches. -/
def AppState.find_action (st : AppState) (batch_id : String) (email_id : Nat) :
    Option ActionId :=
  match dictFind? st.batches batch_id with
  | none => none
  | some b => b.actions.find? (fun i => decide ((st.heap i).email.id = email_id))

/-- Python `AppState._restore_action_state`: overwrites destination, mark_as_read and
status from the snapshot, with no guard. -/
def restore_action_state (a source : InboxAction) : InboxAction :=
  { a with
    destination := source.destination
    mark_as_read := source.mark_as_read
    status := source.status }

/-- Python `AppState.undo`: pops the newest history entry onto the redo stack, then
looks the action up and restores the before snapshot; returns whether the
restore happened.  Note the ledger move happens before the lookup. -/
def AppState.undo (st : AppState) : AppState × Bool :=
  match st.history.getLast? with
  | none => (st, false)
  | some entry =>
    let st1 := { st with
      history := st.history.dropLast
      redo_stack := st.redo_stack ++ [entry] }
    match st1.find_action entry.batch_id entry.action_before.email.id with
    | none => (st1, false)
    | some i =>
      ({ st1 with
         heap := heapSet st1.heap i
           (restore_action_state (st1.heap i) entry.action_before) }, true)

/-- Python `AppState.redo`: symmetric to `undo`, restoring the after snapshot.  The
push onto `history` goes through the bounded deque. -/
def AppState.redo (st : AppState) : AppState × Bool :=
  match st.redo_stack.getLast? with
  | none => (st, false)
  | some entry =>
    let st1 := { st with
      redo_stack := st.redo_stack.dropLast
      history := histAppend st.history entry }
    match st1.find_action entry.batch_id entry.action_after.email.id with
    | none => (st1, false)
    | some i =>
      ({ st1 with
         heap := heapSet st1.heap i
           (restore_action_state (st1.heap i) entry.action_after) }, true)

/-- Python `AppState.get_batch_by_id`. -/
def AppState.get_batch_by_id (st : AppState) (batch_id : String) :
    Option ActionBatch :=
  dictFind? st.batches batch_id

/-- A raised Python exception. -/
inductive PyErr where
  | valueError
  | keyError (key : String)
  | attributeError
deriving DecidableEq, Repr

/-- Python `EmailController`: its mutable attributes are the shared `AppState` and
the single-slot `_error_message`.  The callback list is modelled separately
(`notify_loop`); mutating operations instead return the notifications they
fire as a list of events, each carrying the batch passed to the callbacks and
a snapshot of the whole state at the moment the notification fires. -/
structure EmailController where
  state : AppState
  error_message : Option String

/-- One `_notify_batch_updated` firing: the batch handed to every callback and
the state observable at that moment. -/
structure NotifyEvent where
  batch : ActionBatch
  snapshot : AppState

/-- The notifications fired by one `_notify_batch_updated()` call: one event
if a current batch exists, none otherwise. -/
def notifyEvents (st : AppState) : List NotifyEvent :=
  match st.current_batch with
  | some b => [⟨b, st⟩]
  | none => []

/-- In-place mutation of the action object `i` through a method `f`. -/
def AppState.update_action (st : AppState) (i : ActionId)
    (f : InboxAction → InboxAction) : AppState :=
  { st with heap := heapSet st.heap i (f (st.heap i)) }

/-- Python `list.remove(action)` on a batch's action list: drops the first element
`==`-equal (dataclass equality) to the given object's value; `none` models the
raised `ValueError` when no element matches. -/
def removeFirstEq (h : Heap) (target : InboxAction) :
    List ActionId → Option (List ActionId)
  | [] => none
  | j :: rest =>
    if (h j).dataclass_eq target then some rest
    else (removeFirstEq h target rest).map (fun l => j :: l)

/-- The replacement source batch built by `modify_action` after the removal:
a fresh `ActionBatch` with the same id and status, the post-removal action
list, a fresh creation timestamp and no error message. -/
def movedSourceBatch (cb : ActionBatch) (rest : List ActionId) (now : Nat) :
    ActionBatch :=
  { id := cb.id
    actions := rest
    created_at := now
    status := cb.status
    error_message := none }

/-- The destination-change branch of `EmailController.modify_action`: remove
the action from the current batch (ValueError when absent), install the
replacement source batch, look up the batch keyed by the lowercased
destination name (KeyError when absent), apply `set_destination`, append the
action to the destination batch, and notify.  On a raise the error carries the
state mutated so far, as the Python exception would leave it. -/
def modify_dest_step (now : Nat) (st : AppState) (aid : ActionId)
    (cb : ActionBatch) (d : EmailDestination) :
    Except (PyErr × AppState) (AppState × List NotifyEvent) :=
  match removeFirstEq st.heap (st.heap aid) cb.actions with
  | none => .error (PyErr.valueError, st)
  | some rest =>
    let st1 := { st with
      batches := dictInsert st.batches cb.id (movedSourceBatch cb rest now) }
    match dictFind? st1.batches d.nameLower with
    | none => .error (PyErr.keyError d.nameLower, st1)
    | some dest_batch =>
      let st2 := st1.update_action aid (fun a => a.set_destination d now)
      let st3 := { st2 with
        batches := dictInsert st2.batches d.nameLower
          { dest_batch with actions := dest_batch.actions ++ [aid] } }
      .ok (st3, notifyEvents st3)

/-- The outcome of `EmailController.modify_action`: the controller afterwards,
the notifications fired before returning or raising, and the exception raised
(if any). -/
structure ModifyResult where
  ctrl : EmailController
  events : List NotifyEvent
  err : Option PyErr

/-- The non-destination field edits of `modify_action`: `set_read_status`
when a read flag is supplied, then accept/reject when a status is supplied
(any other supplied status is ignored). -/
def modify_field_steps (now : Nat) (st1 : AppState) (aid : ActionId)
    (mark_as_read : Option Bool) (status : Option ActionStatus) : AppState :=
  let st2 :=
    match mark_as_read with
    | some m => st1.update_action aid (fun x => x.set_read_status m now)
    | none => st1
  match status with
  | some s =>
    if s = ActionStatus.ACCEPTED then st2.update_action aid InboxAction.accept
    else if s = ActionStatus.REJECTED then
      st2.update_action aid InboxAction.reject
    else st2
  | none => st2

/-- Python `EmailController.modify_action`.  The guard rejects (error message, no
mutation) when the action cannot be modified or no current batch exists.
Otherwise: optional destination move (with its mid-operation notification),
then the other field edits, then a single history record of the before/after
snapshots keyed by the current batch id (guaranteed to exist by the guard). -/
def EmailController.modify_action (now : Nat) (ctrl : EmailController)
    (aid : ActionId) (destination : Option EmailDestination)
    (mark_as_read : Option Bool) (status : Option ActionStatus) :
    ModifyResult :=
  let st := ctrl.state
  let a := st.heap aid
  match st.current_batch, a.can_modify with
  | some cb, true =>
    let action_before := a
    let step :=
      match destination with
      | some d =>
        if d = a.destination then Except.ok (st, ([] : List NotifyEvent))
        else modify_dest_step now st aid cb d
      | none => Except.ok (st, ([] : List NotifyEvent))
    match step with
    | .error (e, st1) => ⟨{ ctrl with state := st1 }, [], some e⟩
    | .ok (st1, evs) =>
      let st3 := modify_field_steps now st1 aid mark_as_read status
      let st4 := st3.record_action_change action_before (st3.heap aid)
        (st3.currentBatchId.getD "") now
      ⟨{ ctrl with state := st4 }, evs, none⟩
  | _, _ =>
    ⟨{ ctrl with error_message := some "Cannot modify action in current state" },
      [], none⟩

/-- The external executor (`GmailWrapper.execute_action`), called with the
thread id, destination and read flag. -/
abbrev Executor := Nat → EmailDestination → Bool → Except String Unit

/-- Python `EmailController.execute_action`: guard on `can_execute`, mark EXECUTING,
call the executor, mark EXECUTED on success or FAILED (and set the error
message) on a fault; the fault never escapes. -/
def EmailController.execute_action (ex : Executor) (ctrl : EmailController)
    (aid : ActionId) : EmailController × Bool :=
  let a := ctrl.state.heap aid
  if !a.can_execute then
    ({ ctrl with
       error_message := some "Action cannot be executed in current state" },
      false)
  else
    let st1 := ctrl.state.update_action aid InboxAction.set_executing
    let a1 := st1.heap aid
    match ex a1.email.threadId a1.destination a1.mark_as_read with
    | .ok _ =>
      ({ ctrl with state := st1.update_action aid InboxAction.set_executed },
        true)
    | .error e =>
      ({ ctrl with
         state := st1.update_action aid (fun x => x.set_failed e)
         error_message := some ("Failed to execute action: " ++ e) },
        false)

/-- The action loop of `EmailController.execute_batch`: walk the batch's
actions in order, attempt each one whose `can_execute` holds, record whether
all attempts succeeded, and return the attempted action ids in order.  One
action's failure does not stop the loop. -/
def execBatchLoop (ex : Executor) (ctrl : EmailController) :
    List ActionId → EmailController × Bool × List ActionId
  | [] => (ctrl, true, [])
  | aid :: rest =>
    if (ctrl.state.heap aid).can_execute then
      let r1 := EmailController.execute_action ex ctrl aid
      let r2 := execBatchLoop ex r1.1 rest
      (r2.1, r1.2 && r2.2.1, aid :: r2.2.2)
    else execBatchLoop ex ctrl rest

/-- Python `EmailController.execute_batch`.  The batch argument is the object stored
in `state.batches` under its own id at every call site, so the in-place
`set_status` writes are modelled as writes through to the mapping at `b.id`.
`execute_action` is total here, so the source's outer exception handler is
unreachable.  Returns (controller, success flag, attempted ids, events). -/
def EmailController.execute_batch (ex : Executor) (ctrl : EmailController)
    (b : ActionBatch) :
    EmailController × Bool × List ActionId × List NotifyEvent :=
  if !b.can_execute ctrl.state.heap then
    ({ ctrl with
       error_message := some "Batch cannot be executed in current state" },
      false, [], [])
  else
    let stE := { ctrl.state with
      batches := dictInsert ctrl.state.batches b.id
        (b.set_status ActionBatchStatus.EXECUTING) }
    let r := execBatchLoop ex { ctrl with state := stE } b.actions
    let ctrl1 := r.1
    let success := r.2.1
    let final :=
      if success then ActionBatchStatus.COMPLETED else ActionBatchStatus.FAILED
    let st2 := { ctrl1.state with
      batches := dictInsert ctrl1.state.batches b.id (b.set_status final) }
    ({ ctrl1 with state := st2 }, success, r.2.2, notifyEvents st2)

/-- The suggestion returned by `GmailWrapper.suggest_action` for one email:
destination, read flag and `npc` status. -/
structure SuggestedAction where
  destination : EmailDestination
  mark_as_read : Bool
  status : NpcStatus

/-- The external suggestion provider; may fault. -/
abbrev Suggester := Email → Nat → Except String SuggestedAction

/-- Python `_convert_npc_status_to_action_status`; the `.get` default (PENDING) is
unreachable because the table covers the whole enumeration. -/
def convert_npc_status : NpcStatus → ActionStatus
  | .NOT_STARTED => ActionStatus.PENDING
  | .IN_PROGRESS => ActionStatus.EXECUTING
  | .SUCCEEDED => ActionStatus.EXECUTED
  | .FAILED => ActionStatus.FAILED
  | .CANCELED => ActionStatus.REJECTED

/-- The action-building loop of `load_batch`: one suggestion call per email,
allocating an `InboxAction` object per success; a fault aborts the loop, with
the already-created (now unreferenced) objects still allocated. -/
def loadActionsLoop (sugg : Suggester) (heap : Heap) (nextId : Nat) :
    List (Email × Nat) →
    Except (String × Heap × Nat) (Heap × Nat × List ActionId)
  | [] => .ok (heap, nextId, [])
  | (email, thread) :: rest =>
    match sugg email thread with
    | .error e => .error (e, heap, nextId)
    | .ok s =>
      let a0 := InboxAction.make email s.destination s.mark_as_read
      let a1 := { a0 with status := convert_npc_status s.status }
      match loadActionsLoop sugg (heapSet heap nextId a1) (nextId + 1) rest with
      | .error r => .error r
      | .ok r => .ok (r.1, r.2.1, nextId :: r.2.2)

/-- Python `EmailController.load_batch`: empty input returns no batch (and, in the
source, sets no error message); a suggestion fault is caught by the outer
handler, which sets the error message and returns no batch; otherwise a fresh
batch named `batch_N` (N = number of known batches + 1) is installed as the
current batch and a notification fires. -/
def EmailController.load_batch (now : Nat) (sugg : Suggester)
    (ctrl : EmailController) (threads : List (Email × Nat)) :
    EmailController × Option ActionBatch × List NotifyEvent :=
  if threads.isEmpty then (ctrl, none, [])
  else
    match loadActionsLoop sugg ctrl.state.heap ctrl.state.nextId threads with
    | .error r =>
      ({ ctrl with
         state := { ctrl.state with heap := r.2.1, nextId := r.2.2 }
         error_message := some ("Failed to load batch: " ++ r.1) },
        none, [])
    | .ok r =>
      let batch : ActionBatch :=
        { id := "batch_" ++ toString (ctrl.state.batches.length + 1)
          actions := r.2.2
          created_at := now
          status := ActionBatchStatus.READY
          error_message := none }
      let st1 := { ctrl.state with heap := r.1, nextId := r.2.1 }
      let st2 := st1.set_current_batch batch
      ({ ctrl with state := st2 }, some batch, notifyEvents st2)

/-- Python `EmailController.undo`.  The source assigns `entry = self.state.undo()`,
but `AppState.undo` returns a `bool`; when that bool is `True` the next line
reads `entry.batch_id` from a `bool` and raises `AttributeError`, so the rest
of the function is unreachable.  When the bool is `False` the controller
returns `False`, with the ledger moves `AppState.undo` already made left in
place. -/
def EmailController.undo (ctrl : EmailController) :
    EmailController × Bool × Option PyErr :=
  if !ctrl.state.can_undo then (ctrl, false, none)
  else
    let r := ctrl.state.undo
    let ctrl1 := { ctrl with state := r.1 }
    if !r.2 then (ctrl1, false, none)
    else (ctrl1, false, some PyErr.attributeError)

/-- Python `EmailController.redo`: same shape (and same `AttributeError`) as
`EmailController.undo`, over the redo ledger. -/
def EmailController.redo (ctrl : EmailController) :
    EmailController × Bool × Option PyErr :=
  if !ctrl.state.can_redo then (ctrl, false, none)
  else
    let r := ctrl.state.redo
    let ctrl1 := { ctrl with state := r.1 }
    if !r.2 then (ctrl1, false, none)
    else (ctrl1, false, some PyErr.attributeError)

/-- An observer callback registered through `add_batch_updated_callback`; a
fault is an `error` result. -/
abbrev BatchCallback := ActionBatch → Except String Unit

/-- The callback loop of `_notify_batch_updated`: the callbacks run in
registration order with no exception handling, so a fault stops the loop and
propagates. -/
def notify_loop : List BatchCallback → ActionBatch → Except String Unit
  | [], _ => .ok ()
  | c :: rest, b =>
    match c b with
    | .ok _ => notify_loop rest b
    | .error e => .error e

/-- How many callbacks the loop actually invokes. -/
def notify_invoked : List BatchCallback → ActionBatch → Nat
  | [], _ => 0
  | c :: rest, b =>
    match c b with
    | .ok _ => 1 + notify_invoked rest b
    | .error _ => 1

/-- Python `EmailController._notify_batch_updated` with an explicit callback list:
runs the loop only when a current batch exists. -/
def EmailController.notify_batch_updated (cbs : List BatchCallback)
    (ctrl : EmailController) : Except String Unit :=
  match ctrl.state.current_batch with
  | none => .ok ()
  | some b => notify_loop cbs b

/-! Concrete fixtures used by counterexamples and witnesses. -/

def email1 : Email := ⟨1, 11⟩

def email2 : Email := ⟨2, 22⟩

/-- Default heap content for unallocated ids. -/
def heap0 : Heap := fun _ => InboxAction.make email1 EmailDestination.NEWSLETTER true

def st0 : AppState := ⟨heap0, 0, none, [], [], []⟩

def ctrl0 : EmailController := ⟨st0, none⟩

def suggNewsletter : Suggester :=
  fun _ _ => .ok ⟨EmailDestination.NEWSLETTER, true, NpcStatus.NOT_STARTED⟩

def suggFail : Suggester := fun _ _ => .error "llm down"

def exOk : Executor := fun _ _ _ => .ok ()

/-- Controller after `load_batch` of one email: batch `batch_1` holding the
single pending action `0`. -/
def ctrl1 : EmailController :=
  (EmailController.load_batch 0 suggNewsletter ctrl0 [(email1, 11)]).1

/-- Then the user accepts the action (`modify_action` with status ACCEPTED),
recording one history entry. -/
def ctrl2 : EmailController :=
  (EmailController.modify_action 1 ctrl1 0 none none
    (some ActionStatus.ACCEPTED)).ctrl

/-- Then the action is executed successfully. -/
def ctrl3 : EmailController := (EmailController.execute_action exOk ctrl2 0).1








/-- A history entry whose recorded batch no longer exists. -/
def entryGhost : ActionHistoryEntry :=
  ⟨InboxAction.make email1 EmailDestination.NEWSLETTER true,
   (InboxAction.make email1 EmailDestination.NEWSLETTER true).accept,
   "ghost", 0⟩

def stGhost : AppState := ⟨heap0, 0, none, [entryGhost], [], []⟩



/-- A state with a current `newsletter` batch holding action `0` and an empty
`archive` batch, as `group_by_destination` would install them. -/
def batchN : ActionBatch :=
  ⟨"newsletter", [0], 0, ActionBatchStatus.READY, none⟩

def batchA : ActionBatch :=
  ⟨"archive", [], 0, ActionBatchStatus.READY, none⟩

def stDest : AppState :=
  ⟨heap0, 1, some "newsletter", [], [],
   [("newsletter", batchN), ("archive", batchA)]⟩

def ctrlDest : EmailController := ⟨stDest, none⟩

/-- Python `modify_action` moving action 0 to ARCHIVE while also clearing its read
flag. -/
def modifyMoveResult : ModifyResult :=
  EmailController.modify_action 5 ctrlDest 0 (some EmailDestination.ARCHIVE)
    (some false) none





def cbFail : BatchCallback := fun _ => .error "observer fault"

def cbOk : BatchCallback := fun _ => .ok ()



/-- Two reviewed actions: 0 accepted, 1 rejected. -/
def heapTwo : Heap := fun i =>
  if i = 0 then
    { InboxAction.make email1 EmailDestination.NEWSLETTER true with
      status := ActionStatus.ACCEPTED }
  else
    { InboxAction.make email2 EmailDestination.NEWSLETTER true with
      status := ActionStatus.REJECTED }

def batchTwo : ActionBatch :=
  ⟨"newsletter", [0, 1], 0, ActionBatchStatus.READY, none⟩

def stTwo : AppState :=
  ⟨heapTwo, 2, some "newsletter", [], [], [("newsletter", batchTwo)]⟩

def ctrlTwo : EmailController := ⟨stTwo, none⟩






/-- Whether an external call returned normally. -/
def exceptOk {ε α : Type} : Except ε α → Bool
  | .ok _ => true
  | .error _ => false

/-- The executor outcome for an action: the executor only reads the thread
id, destination and read flag. -/
def exOutcome (ex : Executor) (a : InboxAction) : Except String Unit :=
  ex a.email.threadId a.destination a.mark_as_read

/-- Python `modify_action` called `n` times with the same arguments. -/
def modifyIter (now : Nat) (aid : ActionId) (d : Option EmailDestination)
    (m : Option Bool) (s : Option ActionStatus) :
    Nat → EmailController → EmailController
  | 0, c => c
  | n + 1, c =>
    modifyIter now aid d m s n (EmailController.modify_action now c aid d m s).ctrl

/-- The batch `load_batch` installs in the `ctrl1` fixture. -/
def batch1 : ActionBatch := ⟨"batch_1", [0], 0, ActionBatchStatus.READY, none⟩


/-! Helper lemmas. -/

theorem heapSet_same (h : Heap) (j : ActionId) (v : InboxAction) :
    heapSet h j v j = v := by
  simp [heapSet]

theorem heapSet_ne (h : Heap) (j : ActionId) (v : InboxAction) {i : ActionId}
    (hij : i ≠ j) : heapSet h j v i = h i := by
  simp [heapSet, hij]

theorem update_action_heap_self (st : AppState) (j : ActionId)
    (f : InboxAction → InboxAction) :
    (st.update_action j f).heap j = f (st.heap j) := by
  simp [AppState.update_action, heapSet]

theorem update_action_heap_ne (st : AppState) (j : ActionId)
    (f : InboxAction → InboxAction) {i : ActionId} (hij : i ≠ j) :
    (st.update_action j f).heap i = st.heap i := by
  simp [AppState.update_action, heapSet, hij]

theorem dictFind_insert (d : Dict) (kIns kGet : String) (v : ActionBatch) :
    dictFind? (dictInsert d kIns v) kGet =
      if kGet = kIns then some v else dictFind? d kGet := by
  induction d with
  | nil =>
    by_cases h : kGet = kIns
    · simp [dictInsert, dictFind?, h]
    · have h' : ¬ kIns = kGet := fun hh => h hh.symm
      simp [dictInsert, dictFind?, h, h']
  | cons kv rest ih =>
    obtain ⟨k0, v0⟩ := kv
    by_cases h0 : k0 = kIns
    · subst h0
      by_cases hg : kGet = k0
      · subst hg
        simp [dictInsert, dictFind?]
      · have hg' : ¬ k0 = kGet := fun hh => hg hh.symm
        simp [dictInsert, dictFind?, hg, hg']
    · by_cases hg : k0 = kGet
      · subst hg
        simp [dictInsert, dictFind?, h0]
      · simp [dictInsert, dictFind?, h0, hg, ih]

theorem exceptOk_iff {ε α : Type} (r : Except ε α) :
    exceptOk r = true ↔ ∃ a, r = .ok a := by
  cases r <;> simp [exceptOk]

theorem terminal_can_modify {a : InboxAction}
    (h : a.status = ActionStatus.EXECUTED ∨ a.status = ActionStatus.FAILED) :
    a.can_modify = false := by
  rcases h with h | h <;> simp [InboxAction.can_modify, h]

theorem terminal_can_execute {a : InboxAction}
    (h : a.status = ActionStatus.EXECUTED ∨ a.status = ActionStatus.FAILED) :
    a.can_execute = false := by
  rcases h with h | h <;> simp [InboxAction.can_execute, h]

/-! Claim theorems. -/

/-- Claim C1, counterexample: in a state reached by loading one email,
accepting its action and executing it (status EXECUTED, a terminal status),
the Controller's `undo` operation changes the status back to PENDING — the
terminal status is not absorbing under undo. -/
theorem c1_counterexample :
    (ctrl3.state.heap 0).status = ActionStatus.EXECUTED
    ∧ ((EmailController.undo ctrl3).1.state.heap 0).status =
        ActionStatus.PENDING := by
  decide

/-- Claim C2, counterexample: when the popped undo entry's batch can no longer
be found, `AppState.undo` returns false but does not leave the state
unchanged — the entry has moved from the undo ledger to the redo ledger. -/
theorem c2_counterexample :
    stGhost.undo.2 = false
    ∧ stGhost.undo.1.redo_stack ≠ stGhost.redo_stack
    ∧ stGhost.undo.1.history ≠ stGhost.history := by
  decide

/-- Claim C3, counterexample: a `modify_action` call changing destination and
read flag together fires its single notification at a moment when the
destination change is applied but the read-flag change is not, so the observer
sees a partially applied multi-field edit. -/
theorem c3_counterexample :
    modifyMoveResult.err = none
    ∧ modifyMoveResult.events.map (fun e => (e.snapshot.heap 0).destination) =
        [EmailDestination.ARCHIVE]
    ∧ modifyMoveResult.events.map (fun e => (e.snapshot.heap 0).mark_as_read) =
        [true]
    ∧ (modifyMoveResult.ctrl.state.heap 0).mark_as_read = false := by
  decide

/-- Claim C6, counterexample: `load_batch` on the empty input returns no batch
but does not set the controller's error message. -/
theorem c6_counterexample :
    (EmailController.load_batch 0 suggNewsletter ctrl0 []).2.1 = none
    ∧ (EmailController.load_batch 0 suggNewsletter ctrl0 []).1.error_message =
        none := by
  decide

/-- Claim C7, counterexample: with two registered observers of which the first
raises, the notification loop invokes only one observer and the fault
propagates out of `_notify_batch_updated` to the caller. -/
theorem c7_counterexample :
    EmailController.notify_batch_updated [cbFail, cbOk] ctrlDest =
      .error "observer fault"
    ∧ notify_invoked [cbFail, cbOk] batchN = 1
    ∧ [cbFail, cbOk].length = 2 :=
  ⟨rfl, rfl, rfl⟩

/-- Claim C8: the ledgers permit an undo and the state-level undo succeeds,
yet `EmailController.undo` raises `AttributeError` instead of restoring and
returning true: it assigns `entry = self.state.undo()`, but `AppState.undo`
returns a bool, and `entry.batch_id` is then read from that bool.  The last
two conjuncts show the underlying `AppState` undo/redo pair does restore the
after snapshot (accepting the action again), which is the behaviour the claim
describes. -/
theorem c8_controller_undo_type_confusion :
    ctrl3.state.can_undo = true
    ∧ ctrl3.state.undo.2 = true
    ∧ (EmailController.undo ctrl3).2.2 = some PyErr.attributeError
    ∧ (EmailController.undo ctrl3).2.1 = false
    ∧ (ctrl2.state.undo.1.redo.1.heap 0).status = ActionStatus.ACCEPTED
    ∧ (ctrl2.state.heap 0).status = ActionStatus.ACCEPTED := by
  decide

theorem count_filter_dest (h : Heap) (d : EmailDestination) (i : ActionId) :
    ∀ l : List ActionId,
      List.count i (l.filter (fun j => decide ((h j).destination = d))) =
        if (h i).destination = d then List.count i l else 0
  | [] => by simp
  | a :: l => by
    by_cases hia : i = a
    · subst hia
      by_cases hd : (h i).destination = d
      · simp [List.filter_cons, hd, List.count_cons, count_filter_dest h d i l]
      · simp [List.filter_cons, hd, count_filter_dest h d i l]
    · by_cases hd : (h a).destination = d
      · simp [List.filter_cons, hd, List.count_cons, hia,
          count_filter_dest h d i l]
      · simp [List.filter_cons, hd, List.count_cons, hia,
          count_filter_dest h d i l]

/-- Claim C5: `group_by_destination` yields one batch per member of the
destination enumeration (in order, empty batches included), each batch id is
the lowercased destination name, and the concatenation of all batches' action
lists is a permutation of the input — every input action reference appears
exactly once, no copies and no losses. -/
theorem c5_group_by_destination_partition (now : Nat) (h : Heap)
    (l : List ActionId) :
    (group_by_destination now h l).map (fun p => p.1) = allDestinations
    ∧ (group_by_destination now h l).map (fun p => p.2.id) =
        allDestinations.map EmailDestination.nameLower
    ∧ List.Perm
        (((group_by_destination now h l).map (fun p => p.2.actions)).flatten) l := by
  refine ⟨rfl, rfl, ?_⟩
  rw [List.perm_iff_count]
  intro i
  simp only [group_by_destination, allDestinations, List.map_cons,
    List.map_nil, List.flatten, List.count_append, List.count_nil]
  rcases hd : (h i).destination <;> simp [count_filter_dest, hd]

theorem modify_action_rejected (now : Nat) (ctrl : EmailController)
    (aid : ActionId) (d : Option EmailDestination) (m : Option Bool)
    (s : Option ActionStatus) (h : (ctrl.state.heap aid).can_modify = false) :
    EmailController.modify_action now ctrl aid d m s =
      ⟨{ ctrl with error_message := some "Cannot modify action in current state" },
        [], none⟩ := by
  cases hcb : ctrl.state.current_batch with
  | none => simp [EmailController.modify_action, hcb]
  | some cb => simp [EmailController.modify_action, hcb, h]

theorem modifyIter_state (now : Nat) (aid : ActionId)
    (d : Option EmailDestination) (m : Option Bool) (s : Option ActionStatus) :
    ∀ (n : Nat) (ctrl : EmailController),
      (ctrl.state.heap aid).can_modify = false →
      (modifyIter now aid d m s n ctrl).state = ctrl.state
  | 0, _, _ => rfl
  | n + 1, ctrl, h => by
    have h1 := modify_action_rejected now ctrl aid d m s h
    have h2 : (EmailController.modify_action now ctrl aid d m s).ctrl.state =
        ctrl.state := by rw [h1]
    have h3 : ((EmailController.modify_action now ctrl aid d m s).ctrl.state.heap
        aid).can_modify = false := by rw [h2]; exact h
    calc (modifyIter now aid d m s (n + 1) ctrl).state
        = (EmailController.modify_action now ctrl aid d m s).ctrl.state :=
          modifyIter_state now aid d m s n _ h3
      _ = ctrl.state := h2

/-- Claim C9: for an action whose `can_modify` is false, `modify_action` (any
argument combination, any number of repetitions) raises nothing, fires no
notification, sets the error message, leaves the whole `AppState` — every
action, every batch, both ledgers — unchanged, and records no history entry. -/
theorem c9_modify_nonmodifiable_rejected (now : Nat) (ctrl : EmailController)
    (aid : ActionId) (d : Option EmailDestination) (m : Option Bool)
    (s : Option ActionStatus) (n : Nat)
    (h : (ctrl.state.heap aid).can_modify = false) :
    (EmailController.modify_action now ctrl aid d m s).err = none
    ∧ (EmailController.modify_action now ctrl aid d m s).events = []
    ∧ (EmailController.modify_action now ctrl aid d m s).ctrl.state = ctrl.state
    ∧ (EmailController.modify_action now ctrl aid d m s).ctrl.error_message =
        some "Cannot modify action in current state"
    ∧ (modifyIter now aid d m s n ctrl).state = ctrl.state
    ∧ (modifyIter now aid d m s n ctrl).state.history.length =
        ctrl.state.history.length := by
  have h1 := modify_action_rejected now ctrl aid d m s h
  have h2 := modifyIter_state now aid d m s n ctrl h
  refine ⟨by rw [h1], by rw [h1], by rw [h1], by rw [h1], h2, by rw [h2]⟩

/-- Claim C9 witness: the executed (hence non-modifiable) action of the
`ctrl3` fixture: three repeated `modify_action` calls leave the history length
unchanged. -/
theorem c9_witness :
    (ctrl3.state.heap 0).can_modify = false
    ∧ (modifyIter 9 0 none none (some ActionStatus.REJECTED) 3 ctrl3).state =
        ctrl3.state
    ∧ (modifyIter 9 0 none none (some ActionStatus.REJECTED) 3
        ctrl3).state.history.length = ctrl3.state.history.length :=
  ⟨by decide,
   (c9_modify_nonmodifiable_rejected 9 ctrl3 0 none none
     (some ActionStatus.REJECTED) 3 (by decide)).2.2.2.2.1,
   (c9_modify_nonmodifiable_rejected 9 ctrl3 0 none none
     (some ActionStatus.REJECTED) 3 (by decide)).2.2.2.2.2⟩

/-- Claim C7, amended: when every observer before `c` succeeds and `c` raises,
the notification loop raises `c`'s fault to the caller and the observers after
`c` are never invoked (exactly the first `pre.length + 1` run). -/
theorem c7_amended_callback_fault_stops_loop (pre : List BatchCallback)
    (c : BatchCallback) (post : List BatchCallback) (b : ActionBatch)
    (msg : String) (h1 : ∀ cb ∈ pre, cb b = .ok ())
    (h2 : c b = .error msg) :
    notify_loop (pre ++ c :: post) b = .error msg
    ∧ notify_invoked (pre ++ c :: post) b = pre.length + 1 := by
  induction pre with
  | nil => simp [notify_loop, notify_invoked, h2]
  | cons c0 rest ih =>
    have h0 : c0 b = .ok () := h1 c0 (by simp)
    have hrest : ∀ cb ∈ rest, cb b = .ok () := fun cb hcb => h1 cb (by simp [hcb])
    have := ih hrest
    simp [notify_loop, notify_invoked, h0, this.1, this.2]
    omega

/-- Claim C7 witness: instantiating the amended loop property at two healthy
observers around a raising one. -/
theorem c7_witness :
    notify_loop [cbOk, cbFail, cbOk] batchN = .error "observer fault"
    ∧ notify_invoked [cbOk, cbFail, cbOk] batchN = 2 := by
  have := c7_amended_callback_fault_stops_loop [cbOk] cbFail [cbOk] batchN
    "observer fault" (by intro cb hcb; simp at hcb; rw [hcb]; rfl) rfl
  simpa using this

/-- Claim C2, amended: `undo` (resp. `redo`) returns false and leaves the
state entirely unchanged when its ledger is empty; on a lookup miss it still
returns false and changes no batch and no action (heap, batch mapping and
current batch are untouched), but it does not leave the ledgers unchanged:
the popped entry has moved onto the opposite ledger. -/
theorem c2_amended_undo_redo_failure_paths (st : AppState) :
    (st.history = [] → st.undo = (st, false))
    ∧ (st.redo_stack = [] → st.redo = (st, false))
    ∧ (∀ e, st.history.getLast? = some e →
        st.find_action e.batch_id e.action_before.email.id = none →
        st.undo = ({ st with
          history := st.history.dropLast
          redo_stack := st.redo_stack ++ [e] }, false))
    ∧ (∀ e, st.redo_stack.getLast? = some e →
        st.find_action e.batch_id e.action_after.email.id = none →
        st.redo = ({ st with
          redo_stack := st.redo_stack.dropLast
          history := histAppend st.history e }, false)) := by
  refine ⟨?_, ?_, ?_, ?_⟩
  · intro h
    simp [AppState.undo, h]
  · intro h
    simp [AppState.redo, h]
  · intro e h1 h2
    simp only [AppState.undo, h1]
    simp only [AppState.find_action] at h2 ⊢
    simp [h2]
  · intro e h1 h2
    simp only [AppState.redo, h1]
    simp only [AppState.find_action] at h2 ⊢
    simp [h2]

/-- Claim C2 witness: the lookup-miss branch at the `stGhost` fixture (one
undo entry recorded against a discarded batch). -/
theorem c2_witness :
    stGhost.undo = ({ stGhost with
      history := stGhost.history.dropLast
      redo_stack := stGhost.redo_stack ++ [entryGhost] }, false) :=
  (c2_amended_undo_redo_failure_paths stGhost).2.2.1 entryGhost (by decide)
    (by decide)

theorem loadActionsLoop_fault (sugg : Suggester) (e : Email) (t : Nat)
    (msg : String) (rest : List (Email × Nat)) (h2 : sugg e t = .error msg) :
    ∀ (pre : List (Email × Nat)),
      (∀ p ∈ pre, exceptOk (sugg p.1 p.2) = true) →
      ∀ (heap : Heap) (nid : Nat),
      ∃ hp np, loadActionsLoop sugg heap nid (pre ++ (e, t) :: rest) =
        .error (msg, hp, np) := by
  intro pre
  induction pre with
  | nil =>
    intro _ heap nid
    exact ⟨heap, nid, by simp [loadActionsLoop, h2]⟩
  | cons p pre ih =>
    intro hpre heap nid
    obtain ⟨p1, p2⟩ := p
    obtain ⟨s, hs⟩ := (exceptOk_iff (sugg p1 p2)).1 (hpre (p1, p2) (by simp))
    obtain ⟨hp, np, hh⟩ := ih (fun q hq => hpre q (by simp [hq]))
      (heapSet heap nid
        { InboxAction.make p1 s.destination s.mark_as_read with
          status := convert_npc_status s.status })
      (nid + 1)
    exact ⟨hp, np, by simp [loadActionsLoop, hs, hh]⟩

/-- Claim C6, amended: `load_batch` on the empty input returns no batch and
fires no notification but leaves the controller — error message included —
completely unchanged; when some suggestion call faults (every call before it
succeeding), the whole build is aborted: no batch is returned, no batch is
installed (batch mapping, current batch, ledgers all unchanged), no
notification fires, and the error message is set from the fault. -/
theorem c6_amended_load_batch_failure_paths (now : Nat) (sugg : Suggester)
    (ctrl : EmailController) (pre : List (Email × Nat)) (e : Email) (t : Nat)
    (rest : List (Email × Nat)) (msg : String)
    (h1 : ∀ p ∈ pre, exceptOk (sugg p.1 p.2) = true)
    (h2 : sugg e t = .error msg) :
    EmailController.load_batch now sugg ctrl [] = (ctrl, none, [])
    ∧ (EmailController.load_batch now sugg ctrl (pre ++ (e, t) :: rest)).2.1 =
        none
    ∧ (EmailController.load_batch now sugg ctrl (pre ++ (e, t) :: rest)).2.2 =
        []
    ∧ (EmailController.load_batch now sugg ctrl
        (pre ++ (e, t) :: rest)).1.error_message =
        some ("Failed to load batch: " ++ msg)
    ∧ (EmailController.load_batch now sugg ctrl
        (pre ++ (e, t) :: rest)).1.state.batches = ctrl.state.batches
    ∧ (EmailController.load_batch now sugg ctrl
        (pre ++ (e, t) :: rest)).1.state.currentBatchId =
        ctrl.state.currentBatchId
    ∧ (EmailController.load_batch now sugg ctrl
        (pre ++ (e, t) :: rest)).1.state.history = ctrl.state.history
    ∧ (EmailController.load_batch now sugg ctrl
        (pre ++ (e, t) :: rest)).1.state.redo_stack = ctrl.state.redo_stack := by
  obtain ⟨hp, np, hh⟩ := loadActionsLoop_fault sugg e t msg rest h2 pre h1
    ctrl.state.heap ctrl.state.nextId
  have hne : (pre ++ (e, t) :: rest).isEmpty = false := by
    cases pre <;> simp [List.isEmpty]
  refine ⟨by simp [EmailController.load_batch], ?_, ?_, ?_, ?_, ?_, ?_, ?_⟩ <;>
    simp [EmailController.load_batch, hne, hh]

/-- Claim C6 witness: a faulting suggestion provider on a one-email input
aborts the build with the error message set and the state untouched. -/
theorem c6_witness :
    (EmailController.load_batch 0 suggFail ctrl0 [(email1, 11)]).2.1 = none
    ∧ (EmailController.load_batch 0 suggFail ctrl0
        [(email1, 11)]).1.error_message = some "Failed to load batch: llm down"
    ∧ (EmailController.load_batch 0 suggFail ctrl0 [(email1, 11)]).1.state.batches =
        ctrl0.state.batches := by
  have h := c6_amended_load_batch_failure_paths 0 suggFail ctrl0 [] email1 11
    [] "llm down" (by intro p hp; simp at hp) rfl
  exact ⟨h.2.1, h.2.2.2.1, h.2.2.2.2.1⟩

/-- Claim C10 (implicit): a `modify_action` destination change is total only
when the action's value is present in the current batch's list and the batch
mapping holds a batch keyed by the lowercased destination name; when the
removal finds no match it raises `ValueError`, when the key lookup misses it
raises `KeyError` (instead of returning an error state), and in particular a
state built by `load_batch` — whose only batch is keyed `batch_1` — raises
`KeyError` on any destination change. -/
theorem c10_modify_destination_preconditions :
    (∀ now ctrl aid cb d m s,
      ctrl.state.current_batch = some cb →
      (ctrl.state.heap aid).can_modify = true →
      d ≠ (ctrl.state.heap aid).destination →
      removeFirstEq ctrl.state.heap (ctrl.state.heap aid) cb.actions = none →
      (EmailController.modify_action now ctrl aid (some d) m s).err =
        some PyErr.valueError)
    ∧ (∀ now ctrl aid cb d m s rest,
      ctrl.state.current_batch = some cb →
      (ctrl.state.heap aid).can_modify = true →
      d ≠ (ctrl.state.heap aid).destination →
      removeFirstEq ctrl.state.heap (ctrl.state.heap aid) cb.actions =
        some rest →
      dictFind? (dictInsert ctrl.state.batches cb.id
        (movedSourceBatch cb rest now)) d.nameLower = none →
      (EmailController.modify_action now ctrl aid (some d) m s).err =
        some (PyErr.keyError d.nameLower))
    ∧ (∀ now ctrl aid cb d m s rest db,
      ctrl.state.current_batch = some cb →
      (ctrl.state.heap aid).can_modify = true →
      d ≠ (ctrl.state.heap aid).destination →
      removeFirstEq ctrl.state.heap (ctrl.state.heap aid) cb.actions =
        some rest →
      dictFind? (dictInsert ctrl.state.batches cb.id
        (movedSourceBatch cb rest now)) d.nameLower = some db →
      (EmailController.modify_action now ctrl aid (some d) m s).err = none)
    ∧ (EmailController.modify_action 2 ctrl1 0 (some EmailDestination.ARCHIVE)
        none none).err = some (PyErr.keyError "archive") := by
  refine ⟨?_, ?_, ?_, by decide⟩
  · intro now ctrl aid cb d m s hcb hcm hd hrm
    have hd' : ¬ d = (ctrl.state.heap aid).destination := hd
    simp [EmailController.modify_action, hcb, hcm, hd', modify_dest_step, hrm]
  · intro now ctrl aid cb d m s rest hcb hcm hd hrm hfind
    have hd' : ¬ d = (ctrl.state.heap aid).destination := hd
    simp [EmailController.modify_action, hcb, hcm, hd', modify_dest_step, hrm,
      hfind]
  · intro now ctrl aid cb d m s rest db hcb hcm hd hrm hfind
    have hd' : ¬ d = (ctrl.state.heap aid).destination := hd
    simp [EmailController.modify_action, hcb, hcm, hd', modify_dest_step, hrm,
      hfind]

/-- Claim C10 witness: the KeyError case at the `ctrl1` fixture (the state
`load_batch` builds), requesting a move to ARCHIVE. -/
theorem c10_witness :
    (EmailController.modify_action 2 ctrl1 0 (some EmailDestination.ARCHIVE)
      none none).err =
      some (PyErr.keyError EmailDestination.ARCHIVE.nameLower) :=
  c10_modify_destination_preconditions.2.1 2 ctrl1 0 batch1
    EmailDestination.ARCHIVE none none [] (by decide) (by decide) (by decide)
    (by decide) (by decide)

theorem accept_mark (a : InboxAction) :
    (InboxAction.accept a).mark_as_read = a.mark_as_read := by
  unfold InboxAction.accept
  split <;> rfl

theorem reject_mark (a : InboxAction) :
    (InboxAction.reject a).mark_as_read = a.mark_as_read := by
  unfold InboxAction.reject
  split <;> rfl

theorem modify_field_steps_mark (now : Nat) (st1 : AppState) (aid : ActionId)
    (m : Bool) (s : Option ActionStatus) :
    ((modify_field_steps now st1 aid (some m) s).heap aid).mark_as_read =
      ((st1.heap aid).set_read_status m now).mark_as_read := by
  rcases s with _ | s'
  · simp [modify_field_steps, update_action_heap_self]
  · by_cases h1 : s' = ActionStatus.ACCEPTED
    · simp [modify_field_steps, h1, update_action_heap_self, accept_mark]
    · by_cases h2 : s' = ActionStatus.REJECTED
      · simp [modify_field_steps, h1, h2, update_action_heap_self, reject_mark]
      · simp [modify_field_steps, h1, h2, update_action_heap_self]

theorem set_destination_applied (a : InboxAction) (d : EmailDestination)
    (now : Nat) (hcm : a.can_modify = true) (hd : d ≠ a.destination) :
    a.set_destination d now =
      { a with destination := d, modified_at := some now } := by
  simp [InboxAction.set_destination, hcm, hd]

theorem set_read_status_applied (a : InboxAction) (m : Bool) (now : Nat)
    (hcm : a.can_modify = true) (hm : m ≠ a.mark_as_read) :
    (a.set_read_status m now).mark_as_read = m := by
  simp [InboxAction.set_read_status, hcm, hm]

/-- Claim C3, amended: when `modify_action` changes the destination together
with the read flag, its single notification fires after the destination
assignment but before the read-flag (and status) edits are applied: the
notified snapshot already shows the new destination while still showing the
old read flag, although the final state carries the new read flag.  Calls
that change only the read flag or status fire no notification at all. -/
theorem c3_amended_notification_fires_mid_edit (now : Nat)
    (ctrl : EmailController) (aid : ActionId) (cb : ActionBatch)
    (d : EmailDestination) (m : Bool) (s : Option ActionStatus)
    (rest : List ActionId) (db : ActionBatch)
    (hk : ctrl.state.currentBatchId = some cb.id)
    (hfind : dictFind? ctrl.state.batches cb.id = some cb)
    (hcm : (ctrl.state.heap aid).can_modify = true)
    (hd : d ≠ (ctrl.state.heap aid).destination)
    (hrm : removeFirstEq ctrl.state.heap (ctrl.state.heap aid) cb.actions =
      some rest)
    (hdb : dictFind? (dictInsert ctrl.state.batches cb.id
      (movedSourceBatch cb rest now)) d.nameLower = some db)
    (hm : m ≠ (ctrl.state.heap aid).mark_as_read) :
    (EmailController.modify_action now ctrl aid (some d) (some m) s).err = none
    ∧ (EmailController.modify_action now ctrl aid (some d) (some m)
        s).events.map (fun ev => (ev.snapshot.heap aid).destination) = [d]
    ∧ (EmailController.modify_action now ctrl aid (some d) (some m)
        s).events.map (fun ev => (ev.snapshot.heap aid).mark_as_read) =
        [(ctrl.state.heap aid).mark_as_read]
    ∧ ((EmailController.modify_action now ctrl aid (some d) (some m)
        s).ctrl.state.heap aid).mark_as_read = m
    ∧ (EmailController.modify_action now ctrl aid none (some m) s).events =
        [] := by
  have hcb : ctrl.state.current_batch = some cb := by
    simp [AppState.current_batch, hk, hfind]
  have hd' : ¬ d = (ctrl.state.heap aid).destination := hd
  have happ := set_destination_applied (ctrl.state.heap aid) d now hcm hd
  have hcm' : ({ ctrl.state.heap aid with
      destination := d, modified_at := some now } : InboxAction).can_modify =
      true := hcm
  have hmark' : m ≠ ({ ctrl.state.heap aid with
      destination := d, modified_at := some now } : InboxAction).mark_as_read :=
    hm
  have happ2 := set_read_status_applied _ m now hcm' hmark'
  by_cases hcd : cb.id = d.nameLower
  · have hfind2 : dictFind? ctrl.state.batches d.nameLower = some cb := by
      rw [← hcd]; exact hfind
    have hk2 : ctrl.state.currentBatchId = some d.nameLower := by
      rw [← hcd]; exact hk
    refine ⟨?_, ?_, ?_, ?_, ?_⟩ <;>
      simp [EmailController.modify_action, hcb, hcm, hd', modify_dest_step,
        hrm, hdb, hfind2, notifyEvents, AppState.current_batch, hk2, hcd,
        AppState.update_action, AppState.record_action_change,
        modify_field_steps_mark, dictFind_insert, heapSet_same, happ, happ2]
  · have hne : ¬ cb.id = d.nameLower := hcd
    refine ⟨?_, ?_, ?_, ?_, ?_⟩ <;>
      simp [EmailController.modify_action, hcb, hcm, hd', modify_dest_step,
        hrm, hdb, hfind, notifyEvents, AppState.current_batch, hk, hne,
        AppState.update_action, AppState.record_action_change,
        modify_field_steps_mark, dictFind_insert, heapSet_same, happ, happ2]

/-- Claim C3 witness: the amended property at the `ctrlDest` fixture — the
notified snapshot still carries the old read flag while the final state
carries the requested one. -/
theorem c3_witness :
    (EmailController.modify_action 5 ctrlDest 0 (some EmailDestination.ARCHIVE)
      (some false) none).events.map
      (fun ev => (ev.snapshot.heap 0).mark_as_read) =
      [(ctrlDest.state.heap 0).mark_as_read]
    ∧ ((EmailController.modify_action 5 ctrlDest 0
        (some EmailDestination.ARCHIVE) (some false)
        none).ctrl.state.heap 0).mark_as_read = false := by
  have h := c3_amended_notification_fires_mid_edit 5 ctrlDest 0 batchN
    EmailDestination.ARCHIVE false none [] batchA (by decide) (by decide)
    (by decide) (by decide) (by decide) (by decide) (by decide)
  exact ⟨h.2.2.1, h.2.2.2.1⟩

theorem modify_dest_step_heap_err (now : Nat) (st : AppState) (aid : ActionId)
    (cb : ActionBatch) (d : EmailDestination) (e : PyErr) (st' : AppState)
    (hh : modify_dest_step now st aid cb d = .error (e, st')) :
    st'.heap = st.heap := by
  rcases hrm : removeFirstEq st.heap (st.heap aid) cb.actions with _ | rest
  · simp only [modify_dest_step, hrm] at hh
    cases hh
    rfl
  · simp only [modify_dest_step, hrm] at hh
    rcases hdf : dictFind? (dictInsert st.batches cb.id
        (movedSourceBatch cb rest now)) d.nameLower with _ | db
    · rw [hdf] at hh
      cases hh
      rfl
    · rw [hdf] at hh
      simp at hh

theorem modify_dest_step_heap_ok (now : Nat) (st : AppState) (aid : ActionId)
    (cb : ActionBatch) (d : EmailDestination) (st' : AppState)
    (evs : List NotifyEvent)
    (hh : modify_dest_step now st aid cb d = .ok (st', evs)) {i : ActionId}
    (hia : i ≠ aid) : st'.heap i = st.heap i := by
  rcases hrm : removeFirstEq st.heap (st.heap aid) cb.actions with _ | rest
  · simp only [modify_dest_step, hrm] at hh
    simp at hh
  · simp only [modify_dest_step, hrm] at hh
    rcases hdf : dictFind? (dictInsert st.batches cb.id
        (movedSourceBatch cb rest now)) d.nameLower with _ | db
    · rw [hdf] at hh
      simp at hh
    · rw [hdf] at hh
      cases hh
      simp [AppState.update_action, heapSet, hia]

theorem modify_field_steps_heap_ne (now : Nat) (st1 : AppState)
    (aid : ActionId) (m : Option Bool) (s : Option ActionStatus)
    {i : ActionId} (hia : i ≠ aid) :
    (modify_field_steps now st1 aid m s).heap i = st1.heap i := by
  rcases m with _ | mv <;> rcases s with _ | sv
  · rfl
  · by_cases h1 : sv = ActionStatus.ACCEPTED
    · simp [modify_field_steps, h1, update_action_heap_ne _ _ _ hia]
    · by_cases h2 : sv = ActionStatus.REJECTED
      · simp [modify_field_steps, h1, h2, update_action_heap_ne _ _ _ hia]
      · simp [modify_field_steps, h1, h2]
  · simp [modify_field_steps, update_action_heap_ne _ _ _ hia]
  · by_cases h1 : sv = ActionStatus.ACCEPTED
    · simp [modify_field_steps, h1, update_action_heap_ne _ _ _ hia]
    · by_cases h2 : sv = ActionStatus.REJECTED
      · simp [modify_field_steps, h1, h2, update_action_heap_ne _ _ _ hia]
      · simp [modify_field_steps, h1, h2, update_action_heap_ne _ _ _ hia]

theorem modify_action_heap_ne (now : Nat) (ctrl : EmailController)
    (aid : ActionId) (d : Option EmailDestination) (m : Option Bool)
    (s : Option ActionStatus) {i : ActionId} (hia : i ≠ aid) :
    (EmailController.modify_action now ctrl aid d m s).ctrl.state.heap i =
      ctrl.state.heap i := by
  rcases hcb : ctrl.state.current_batch with _ | cb
  · simp [EmailController.modify_action, hcb]
  rcases hcm : (ctrl.state.heap aid).can_modify
  · simp [EmailController.modify_action, hcb, hcm]
  rcases d with _ | dv
  · simp [EmailController.modify_action, hcb, hcm,
      AppState.record_action_change, modify_field_steps_heap_ne now _ aid m s hia]
  by_cases hde : dv = (ctrl.state.heap aid).destination
  · simp [EmailController.modify_action, hcb, hcm, hde,
      AppState.record_action_change, modify_field_steps_heap_ne now _ aid m s hia]
  rcases hds : modify_dest_step now ctrl.state aid cb dv with ep | op
  · obtain ⟨e, st'⟩ := ep
    have hp := modify_dest_step_heap_err now ctrl.state aid cb dv e st' hds
    simp [EmailController.modify_action, hcb, hcm, hde, hds, hp]
  · obtain ⟨st', evs⟩ := op
    have hp := modify_dest_step_heap_ok now ctrl.state aid cb dv st' evs hds hia
    simp [EmailController.modify_action, hcb, hcm, hde, hds,
      AppState.record_action_change,
      modify_field_steps_heap_ne now _ aid m s hia, hp]

theorem execute_action_heap_pres (ex : Executor) (ctrl : EmailController)
    (j : ActionId) {i : ActionId}
    (hx : i ≠ j ∨ (ctrl.state.heap i).can_execute = false) :
    (EmailController.execute_action ex ctrl j).1.state.heap i =
      ctrl.state.heap i := by
  by_cases hij : i = j
  · subst hij
    have hce : (ctrl.state.heap i).can_execute = false := by
      rcases hx with h | h
      · exact absurd rfl h
      · exact h
    simp [EmailController.execute_action, hce]
  · rcases hce : (ctrl.state.heap j).can_execute
    · simp [EmailController.execute_action, hce]
    · simp only [EmailController.execute_action, hce, Bool.not_true,
        Bool.false_eq_true, if_false]
      split <;> simp [update_action_heap_ne _ _ _ hij]

theorem execute_action_other_fields (ex : Executor) (ctrl : EmailController)
    (j : ActionId) :
    (EmailController.execute_action ex ctrl j).1.state.batches =
      ctrl.state.batches
    ∧ (EmailController.execute_action ex ctrl j).1.state.currentBatchId =
        ctrl.state.currentBatchId
    ∧ (EmailController.execute_action ex ctrl j).1.state.history =
        ctrl.state.history
    ∧ (EmailController.execute_action ex ctrl j).1.state.redo_stack =
        ctrl.state.redo_stack := by
  rcases hce : (ctrl.state.heap j).can_execute
  · simp [EmailController.execute_action, hce]
  · simp only [EmailController.execute_action, hce, Bool.not_true,
      Bool.false_eq_true, if_false]
    split <;> simp [AppState.update_action]

theorem execute_action_flag (ex : Executor) (ctrl : EmailController)
    (j : ActionId) (hce : (ctrl.state.heap j).can_execute = true) :
    (EmailController.execute_action ex ctrl j).2 =
      exceptOk (exOutcome ex (ctrl.state.heap j)) := by
  simp only [EmailController.execute_action, hce, Bool.not_true,
    Bool.false_eq_true, if_false, update_action_heap_self]
  rcases hex : ex (ctrl.state.heap j).email.threadId
      (ctrl.state.heap j).destination (ctrl.state.heap j).mark_as_read with
      e | u
  · simp [InboxAction.set_executing, exOutcome, hex, exceptOk]
  · simp [InboxAction.set_executing, exOutcome, hex, exceptOk]

theorem list_filter_ext {α : Type} (p q : α → Bool) :
    ∀ l : List α, (∀ a ∈ l, p a = q a) → l.filter p = l.filter q
  | [], _ => rfl
  | a :: l, h => by
    have ha := h a (by simp)
    have hl := list_filter_ext p q l (fun b hb => h b (by simp [hb]))
    simp [List.filter_cons, ha, hl]

theorem list_all_ext {α : Type} (p q : α → Bool) :
    ∀ l : List α, (∀ a ∈ l, p a = q a) → l.all p = l.all q
  | [], _ => rfl
  | a :: l, h => by
    have ha := h a (by simp)
    have hl := list_all_ext p q l (fun b hb => h b (by simp [hb]))
    simp [ha, hl]

theorem execBatchLoop_heap_pres (ex : Executor) :
    ∀ (l : List ActionId) (ctrl : EmailController) (i : ActionId),
      (ctrl.state.heap i).can_execute = false →
      (execBatchLoop ex ctrl l).1.state.heap i = ctrl.state.heap i
  | [], _, _, _ => rfl
  | aid :: rest, ctrl, i, h => by
    rcases hce : (ctrl.state.heap aid).can_execute
    · simp [execBatchLoop, hce, execBatchLoop_heap_pres ex rest ctrl i h]
    · have hia : i ≠ aid := by
        intro hh
        rw [hh, hce] at h
        cases h
      have h1 : (EmailController.execute_action ex ctrl aid).1.state.heap i =
          ctrl.state.heap i :=
        execute_action_heap_pres ex ctrl aid (Or.inl hia)
      have h2 : ((EmailController.execute_action ex ctrl
          aid).1.state.heap i).can_execute = false := by
        rw [h1]
        exact h
      simp [execBatchLoop, hce, execBatchLoop_heap_pres ex rest _ i h2, h1]

theorem execBatchLoop_other_fields (ex : Executor) :
    ∀ (l : List ActionId) (ctrl : EmailController),
      (execBatchLoop ex ctrl l).1.state.batches = ctrl.state.batches
      ∧ (execBatchLoop ex ctrl l).1.state.currentBatchId =
          ctrl.state.currentBatchId
      ∧ (execBatchLoop ex ctrl l).1.state.history = ctrl.state.history
  | [], _ => ⟨rfl, rfl, rfl⟩
  | aid :: rest, ctrl => by
    rcases hce : (ctrl.state.heap aid).can_execute
    · simpa [execBatchLoop, hce] using execBatchLoop_other_fields ex rest ctrl
    · have h1 := execute_action_other_fields ex ctrl aid
      have h2 := execBatchLoop_other_fields ex rest
        (EmailController.execute_action ex ctrl aid).1
      simp [execBatchLoop, hce, h1.1, h1.2.1, h1.2.2.1, h2.1, h2.2.1, h2.2.2]

theorem execBatchLoop_spec (ex : Executor) :
    ∀ (l : List ActionId) (ctrl : EmailController), l.Nodup →
      (execBatchLoop ex ctrl l).2.2 =
          l.filter (fun i => (ctrl.state.heap i).can_execute)
      ∧ (execBatchLoop ex ctrl l).2.1 =
          (l.filter (fun i => (ctrl.state.heap i).can_execute)).all
            (fun i => exceptOk (exOutcome ex (ctrl.state.heap i)))
  | [], _, _ => ⟨rfl, rfl⟩
  | aid :: rest, ctrl, hnd => by
    rw [List.nodup_cons] at hnd
    rcases hce : (ctrl.state.heap aid).can_execute
    · have ih := execBatchLoop_spec ex rest ctrl hnd.2
      simp [execBatchLoop, List.filter_cons, hce, ih.1, ih.2]
    · have hheap : ∀ j ∈ rest,
          (EmailController.execute_action ex ctrl aid).1.state.heap j =
            ctrl.state.heap j := by
        intro j hj
        refine execute_action_heap_pres ex ctrl aid (Or.inl ?_)
        intro hji
        exact hnd.1 (hji ▸ hj)
      have ih := execBatchLoop_spec ex rest
        (EmailController.execute_action ex ctrl aid).1 hnd.2
      have hfil : rest.filter (fun i =>
          ((EmailController.execute_action ex ctrl aid).1.state.heap
            i).can_execute) =
          rest.filter (fun i => (ctrl.state.heap i).can_execute) :=
        list_filter_ext _ _ rest (fun j hj => by rw [hheap j hj])
      have hall : (rest.filter (fun i =>
          (ctrl.state.heap i).can_execute)).all (fun i =>
            exceptOk (exOutcome ex
              ((EmailController.execute_action ex ctrl aid).1.state.heap i))) =
          (rest.filter (fun i => (ctrl.state.heap i).can_execute)).all
            (fun i => exceptOk (exOutcome ex (ctrl.state.heap i))) :=
        list_all_ext _ _ _ (fun j hj => by
          rw [hheap j (List.mem_of_mem_filter hj)])
      have hflag := execute_action_flag ex ctrl aid hce
      constructor
      · simp [execBatchLoop, List.filter_cons, hce, ih.1, hfil]
      · simp [execBatchLoop, List.filter_cons, hce, ih.2, hfil, hall, hflag]

/-- Claim C4: for a batch whose `can_execute` holds, `execute_batch` attempts
exactly the ACCEPTED (`can_execute`) actions in sequence order — one action's
executor fault never prevents the later attempts — every non-ACCEPTED action
is left untouched, and the batch ends COMPLETED when every attempt succeeded
and FAILED otherwise (the success flag being exactly "zero attempts failed").
The batch's action list is assumed duplicate-free, which holds for every batch
the code builds (distinct objects in a batch). -/
theorem c4_execute_batch_partial_failure (ex : Executor)
    (ctrl : EmailController) (b : ActionBatch)
    (hce : b.can_execute ctrl.state.heap = true) (hnd : b.actions.Nodup) :
    (EmailController.execute_batch ex ctrl b).2.2.1 =
        b.actions.filter (fun i => (ctrl.state.heap i).can_execute)
    ∧ (EmailController.execute_batch ex ctrl b).2.1 =
        (b.actions.filter (fun i => (ctrl.state.heap i).can_execute)).all
          (fun i => exceptOk (exOutcome ex (ctrl.state.heap i)))
    ∧ dictFind? (EmailController.execute_batch ex ctrl b).1.state.batches b.id
        = some (b.set_status
            (if (EmailController.execute_batch ex ctrl b).2.1 then
              ActionBatchStatus.COMPLETED
            else ActionBatchStatus.FAILED))
    ∧ (∀ i, (ctrl.state.heap i).can_execute = false →
        (EmailController.execute_batch ex ctrl b).1.state.heap i =
          ctrl.state.heap i) := by
  have hspec := execBatchLoop_spec ex b.actions
    { ctrl with state := { ctrl.state with
        batches := dictInsert ctrl.state.batches b.id
          (b.set_status ActionBatchStatus.EXECUTING) } } hnd
  have hpres := execBatchLoop_heap_pres ex b.actions
    { ctrl with state := { ctrl.state with
        batches := dictInsert ctrl.state.batches b.id
          (b.set_status ActionBatchStatus.EXECUTING) } }
  refine ⟨?_, ?_, ?_, ?_⟩
  · simpa [EmailController.execute_batch, hce] using hspec.1
  · simpa [EmailController.execute_batch, hce] using hspec.2
  · simp [EmailController.execute_batch, hce, dictFind_insert]
  · intro i hi
    simpa [EmailController.execute_batch, hce] using hpres i hi

/-- Claim C4 witness: the spec's NEWSLETTER scenario — a two-action batch
with one ACCEPTED and one REJECTED action and a healthy executor attempts
only action 0, succeeds, and ends COMPLETED. -/
theorem c4_witness :
    (EmailController.execute_batch exOk ctrlTwo batchTwo).2.2.1 = [0]
    ∧ (EmailController.execute_batch exOk ctrlTwo batchTwo).2.1 = true
    ∧ dictFind? (EmailController.execute_batch exOk ctrlTwo
        batchTwo).1.state.batches "newsletter" =
        some (batchTwo.set_status ActionBatchStatus.COMPLETED)
    ∧ (EmailController.execute_batch exOk ctrlTwo batchTwo).1.state.heap 1 =
        ctrlTwo.state.heap 1 := by
  have h := c4_execute_batch_partial_failure exOk ctrlTwo batchTwo (by decide)
    (by decide)
  refine ⟨?_, ?_, ?_, h.2.2.2 1 (by decide)⟩
  · rw [h.1]
    decide
  · rw [h.2.1]
    decide
  · have h3 := h.2.2.1
    rw [h.2.1] at h3
    simpa using h3

/-- Claim C1, amended: EXECUTED and FAILED are absorbing for an action under
`modify_action` (on any action), `execute_action` and `execute_batch` — but
not under undo/redo, which restore the recorded snapshot's status
unconditionally and can therefore overwrite a terminal status (see the
counterexample). -/
theorem c1_amended_terminal_absorbing (i : ActionId) :
    (∀ now ctrl j d m s,
      (ctrl.state.heap i).status = ActionStatus.EXECUTED ∨
        (ctrl.state.heap i).status = ActionStatus.FAILED →
      ((EmailController.modify_action now ctrl j d m
        s).ctrl.state.heap i).status = (ctrl.state.heap i).status)
    ∧ (∀ ex ctrl j,
      (ctrl.state.heap i).status = ActionStatus.EXECUTED ∨
        (ctrl.state.heap i).status = ActionStatus.FAILED →
      ((EmailController.execute_action ex ctrl j).1.state.heap i).status =
        (ctrl.state.heap i).status)
    ∧ (∀ ex ctrl b,
      (ctrl.state.heap i).status = ActionStatus.EXECUTED ∨
        (ctrl.state.heap i).status = ActionStatus.FAILED →
      ((EmailController.execute_batch ex ctrl b).1.state.heap i).status =
        (ctrl.state.heap i).status) := by
  refine ⟨?_, ?_, ?_⟩
  · intro now ctrl j d m s ht
    by_cases hij : i = j
    · subst hij
      rw [modify_action_rejected now ctrl i d m s (terminal_can_modify ht)]
    · rw [modify_action_heap_ne now ctrl j d m s hij]
  · intro ex ctrl j ht
    rw [execute_action_heap_pres ex ctrl j (Or.inr (terminal_can_execute ht))]
  · intro ex ctrl b ht
    have hpres := execBatchLoop_heap_pres ex b.actions
      { ctrl with state := { ctrl.state with
          batches := dictInsert ctrl.state.batches b.id
            (b.set_status ActionBatchStatus.EXECUTING) } } i
      (terminal_can_execute ht)
    rcases hce : b.can_execute ctrl.state.heap
    · simp [EmailController.execute_batch, hce]
    · simp only [EmailController.execute_batch, hce, Bool.not_true,
        Bool.false_eq_true, if_false]
      simpa using congrArg InboxAction.status hpres

/-- Claim C1 witness: the amended absorption property applied at the executed
action of the `ctrl3` fixture, for one operation of each kind. -/
theorem c1_witness :
    ((EmailController.modify_action 7 ctrl3 0 none (some false)
      none).ctrl.state.heap 0).status = (ctrl3.state.heap 0).status
    ∧ ((EmailController.execute_action exOk ctrl3 0).1.state.heap 0).status =
        (ctrl3.state.heap 0).status
    ∧ ((EmailController.execute_batch exOk ctrl3 batch1).1.state.heap
        0).status = (ctrl3.state.heap 0).status :=
  ⟨(c1_amended_terminal_absorbing 0).1 7 ctrl3 0 none (some false) none
    (by decide),
   (c1_amended_terminal_absorbing 0).2.1 exOk ctrl3 0 (by decide),
   (c1_amended_terminal_absorbing 0).2.2 exOk ctrl3 batch1 (by decide)⟩

end AiAssistantUi
